import Mathlib

/-!
Shallow embedding of the eu-ai-act-governance repository.

Part 1 models the canonical hashing used by `LineageTracker._stable_hash`
(src/governance/data_lineage.py): JSON serialization with sorted keys
(mirroring `json.dumps(..., sort_keys=True)` with its default ASCII
escaping) followed by SHA-256 (per FIPS 180-4, as `hashlib.sha256`
computes it) rendered as a 64-character lowercase hex digest.
Machine words are `Nat` reduced mod 2^32 where the source overflows.
-/

/-- Reduce a natural number to a 32-bit word. -/
def w32 (n : Nat) : Nat := n % 4294967296

/-- Rotate a 32-bit word right by `n` positions. -/
def rotr32 (x n : Nat) : Nat := w32 ((x >>> n) ||| (x <<< (32 - n)))

/-- Exclusive-or of rotations of one word by each given amount. -/
def xorRots (x : Nat) (ns : List Nat) : Nat :=
  ns.foldl (fun acc n => acc ^^^ rotr32 x n) 0

/-- Bitwise complement of a 32-bit word. -/
def bnot32 (x : Nat) : Nat := x ^^^ 4294967295

/-- The big sigma-0 word function of SHA-256. -/
def bsig0 (x : Nat) : Nat := xorRots x [2, 13, 22]

/-- The big sigma-1 word function of SHA-256. -/
def bsig1 (x : Nat) : Nat := xorRots x [6, 11, 25]

/-- The small sigma-0 word function of SHA-256. -/
def ssig0 (x : Nat) : Nat := xorRots x [7, 18] ^^^ (x >>> 3)

/-- The small sigma-1 word function of SHA-256. -/
def ssig1 (x : Nat) : Nat := xorRots x [17, 19] ^^^ (x >>> 10)

/-- The 64 round constants of SHA-256, as decimal word values. -/
def sha256K : List Nat :=
  [1116352408, 1899447441, 3049323471, 3921009573,
   961987163, 1508970993, 2453635748, 2870763221,
   3624381080, 310598401, 607225278, 1426881987,
   1925078388, 2162078206, 2614888103, 3248222580,
   3835390401, 4022224774, 264347078, 604807628,
   770255983, 1249150122, 1555081692, 1996064986,
   2554220882, 2821834349, 2952996808, 3210313671,
   3336571891, 3584528711, 113926993, 338241895,
   666307205, 773529912, 1294757372, 1396182291,
   1695183700, 1986661051, 2177026350, 2456956037,
   2730485921, 2820302411, 3259730800, 3345764771,
   3516065817, 3600352804, 4094571909, 275423344,
   430227734, 506948616, 659060556, 883997877,
   958139571, 1322822218, 1537002063, 1747873779,
   1955562222, 2024104815, 2227730452, 2361852424,
   2428436474, 2756734187, 3204031479, 3329325298]

/-- Running state of the SHA-256 compression function: eight 32-bit words. -/
structure Sha256H where
  a : Nat
  b : Nat
  c : Nat
  d : Nat
  e : Nat
  f : Nat
  g : Nat
  h : Nat

/-- The initial hash value of SHA-256, as decimal word values. -/
def sha256Init : Sha256H :=
  ⟨1779033703, 3144134277, 1013904242, 2773480762,
   1359893119, 2600822924, 528734635, 1541459225⟩

/-- UTF-8 encoding of a Unicode code point, as Python str.encode() output. -/
def utf8EncodeCodepoint (c : Nat) : List Nat :=
  if c < 128 then [c]
  else if c < 2048 then [192 + c / 64, 128 + c % 64]
  else if c < 65536 then [224 + c / 4096, 128 + c / 64 % 64, 128 + c % 64]
  else [240 + c / 262144, 128 + c / 4096 % 64, 128 + c / 64 % 64, 128 + c % 64]

/-- UTF-8 bytes of a string, as `.encode()` in the source. -/
def strToBytes (s : String) : List Nat :=
  (s.data.map (fun c => utf8EncodeCodepoint c.toNat)).flatten

/-- SHA-256 padding: append 0x80, zeros, and the 64-bit big-endian bit length. -/
def sha256Pad (msg : List Nat) : List Nat :=
  let len := msg.length
  let padZeros := (120 - (len + 1) % 64) % 64
  msg ++ [128] ++ List.replicate padZeros 0
      ++ (List.range 8).map (fun i => ((len * 8) >>> ((7 - i) * 8)) % 256)

/-- Split a padded byte list into 64-byte blocks. -/
def sha256Blocks : List Nat → List (List Nat)
  | [] => []
  | b :: rest => ((b :: rest).take 64) :: sha256Blocks ((b :: rest).drop 64)
termination_by l => l.length
decreasing_by simp; omega

/-- Pack bytes into 32-bit big-endian words. -/
def bytesToWords : List Nat → List Nat
  | b0 :: b1 :: b2 :: b3 :: rest =>
      ((b0 <<< 24) ||| (b1 <<< 16) ||| (b2 <<< 8) ||| b3) :: bytesToWords rest
  | _ => []

/-- Extend the 16 message words of a block to the 64-entry message schedule. -/
def sha256Schedule (ws : List Nat) : List Nat :=
  (List.range 48).foldl
    (fun acc _ =>
      let n := acc.length
      acc ++ [w32 (ssig1 (acc.getD (n - 2) 0) + acc.getD (n - 7) 0
                 + ssig0 (acc.getD (n - 15) 0) + acc.getD (n - 16) 0)])
    ws

/-- One SHA-256 compression step over a 64-byte block. -/
def sha256Compress (st : Sha256H) (block : List Nat) : Sha256H :=
  let ws := sha256Schedule (bytesToWords block)
  let r := (sha256K.zip ws).foldl
    (fun t kw =>
      let ch := (t.e &&& t.f) ^^^ (bnot32 t.e &&& t.g)
      let maj := (t.a &&& t.b) ^^^ (t.a &&& t.c) ^^^ (t.b &&& t.c)
      let t1 := w32 (t.h + bsig1 t.e + ch + kw.1 + kw.2)
      let t2 := w32 (bsig0 t.a + maj)
      ⟨w32 (t1 + t2), t.a, t.b, t.c, w32 (t.d + t1), t.e, t.f, t.g⟩)
    st
  ⟨w32 (st.a + r.a), w32 (st.b + r.b), w32 (st.c + r.c), w32 (st.d + r.d),
   w32 (st.e + r.e), w32 (st.f + r.f), w32 (st.g + r.g), w32 (st.h + r.h)⟩

/-- The eight 32-bit words of the SHA-256 digest of a string. -/
def sha256Words (s : String) : Sha256H :=
  (sha256Blocks (sha256Pad (strToBytes s))).foldl sha256Compress sha256Init

/-- Lowercase hexadecimal digit for a value below 16. -/
def hexDigitChar (n : Nat) : Char :=
  if n < 10 then Char.ofNat (48 + n) else Char.ofNat (87 + n % 16)

/-- Eight-character lowercase hex rendering of a 32-bit word. -/
def hex8 (n : Nat) : String :=
  String.mk ((List.range 8).map (fun i => hexDigitChar ((n >>> ((7 - i) * 4)) % 16)))

/-- SHA-256 hex digest of a string, as `hashlib.sha256(...).hexdigest()`. -/
def sha256hex (s : String) : String :=
  let w := sha256Words s
  hex8 w.a ++ hex8 w.b ++ hex8 w.c ++ hex8 w.d
    ++ hex8 w.e ++ hex8 w.f ++ hex8 w.g ++ hex8 w.h

/-- JSON \uXXXX escape of a 16-bit value. -/
def uEscape (n : Nat) : List Char :=
  ['\\', 'u', hexDigitChar ((n >>> 12) % 16), hexDigitChar ((n >>> 8) % 16),
   hexDigitChar ((n >>> 4) % 16), hexDigitChar (n % 16)]

/-- JSON string escaping of one character, matching `json.dumps` with its
default `ensure_ascii=True`: short escapes for the usual controls, \uXXXX
for other controls and for every code point at or above 0x7f (surrogate
pairs beyond the BMP). -/
def jsonEscapeChar (c : Char) : List Char :=
  if c = '"' then ['\\', '"']
  else if c = '\\' then ['\\', '\\']
  else if c.toNat = 10 then ['\\', 'n']
  else if c.toNat = 9 then ['\\', 't']
  else if c.toNat = 13 then ['\\', 'r']
  else if c.toNat = 8 then ['\\', 'b']
  else if c.toNat = 12 then ['\\', 'f']
  else if c.toNat < 32 ∨ 127 ≤ c.toNat then
    if c.toNat < 65536 then uEscape c.toNat
    else uEscape (55296 + (c.toNat - 65536) >>> 10)
         ++ uEscape (56320 + ((c.toNat - 65536) &&& 1023))
  else [c]

/-- Values a tabular cell can hold, restricted to the JSON-serializable
scalars the lineage module feeds through `json.dumps`. -/
inductive PyCell
  | pnull
  | pbool (b : Bool)
  | pint (n : Int)
  | pstr (s : String)
deriving DecidableEq

/-- JSON rendering of one cell, as `json.dumps` renders scalars. -/
def cellJson : PyCell → String
  | .pnull => "null"
  | .pbool true => "true"
  | .pbool false => "false"
  | .pint n => toString n
  | .pstr s => "\"" ++ String.mk ((s.data.map jsonEscapeChar).flatten) ++ "\""

/-- A row of a tabular value: a Python dict from column name to cell, in
insertion (column) order, keys unique. -/
abbrev Row := List (String × PyCell)

/-- Key comparison used to model `sort_keys=True`. -/
def keyLE (p q : String × PyCell) : Prop := p.1 ≤ q.1

instance : DecidableRel keyLE := fun p q => inferInstanceAs (Decidable (p.1 ≤ q.1))

/-- Key-sorted view of a dict, modelling the member order `json.dumps(...,
sort_keys=True)` emits. -/
def sortByKey (row : Row) : Row := List.insertionSort keyLE row

/-- Join with the default `json.dumps` item separator. -/
def joinComma (xs : List String) : String := String.intercalate ", " xs

/-- JSON object rendering of a dict with sorted keys, default separators. -/
def rowJson (row : Row) : String :=
  "\x7b" ++ joinComma ((sortByKey row).map
    (fun kv => cellJson (.pstr kv.1) ++ ": " ++ cellJson kv.2)) ++ "\x7d"

/-- JSON array rendering of to_dict with orient records output: the rows in
order, each a key-sorted object. -/
def recordsJson (rows : List Row) : String :=
  "[" ++ joinComma (rows.map rowJson) ++ "]"

/-- A pandas DataFrame as its column list (unique names, display order) and
its rows in order; to_dict with orient records yields exactly `rows`. -/
structure DataFrame where
  columns : List String
  rows : List Row
deriving DecidableEq

/-- The three input shapes `_stable_hash` distinguishes: something with
`to_dict` (a DataFrame), a plain dict, and the fallback that serializes
`str(data)`. -/
inductive PyData
  | frame (df : DataFrame)
  | dict (d : Row)
  | other (s : String)

/-- Embedding of `LineageTracker._stable_hash`: canonical JSON serialization
(sorted keys) followed by the SHA-256 hex digest. -/
def stable_hash : PyData → String
  | .frame df => sha256hex (recordsJson df.rows)
  | .dict d => sha256hex (rowJson d)
  | .other s => sha256hex (cellJson (.pstr s))

/-!
Part 2 models the lineage record of src/governance/data_lineage.py.

A pipeline step is a Python dict; the integrity check reads only the four
keys `step`, `input_hash`, `output_hash`, `timestamp`, plus the extra keys
`track_transformation` writes, all carried here as optional fields (a
`none` hash field models an absent key; hash values written by the code
are always strings). A timestamp key can be absent, hold a falsy value
(Python `None` — getting the timestamp then yields a falsy result and
the ordering comparison is skipped), or hold a datetime, modelled as a
`Nat` instant. Comparing a datetime against a previously-stored falsy
timestamp raises a `TypeError` in Python, modelled as `Except.error`.
-/

/-- Value held under the step field `timestamp`: key absent, a falsy value
(`None`), or a datetime instant. -/
inductive TsField
  | absent
  | falsy
  | dt (t : Nat)
deriving DecidableEq

/-- One entry of `transformation_pipeline`: the dict the lineage code reads
and writes, with presence-optional keys. -/
structure PipelineStep where
  step : Option String := none
  input_hash : Option String := none
  output_hash : Option String := none
  timestamp : TsField := .absent
  transformation_code : Option String := none
  row_count_before : Option Int := none
  row_count_after : Option Int := none
  rows_removed : Option Int := none
  columns_added : Option (List String) := none
  columns_removed : Option (List String) := none
deriving DecidableEq

/-- Embedding of the `DataLineage` dataclass. -/
structure DataLineage where
  dataset_id : String
  source_systems : List String
  extraction_timestamp : Nat
  transformation_pipeline : List PipelineStep := []
  data_quality_metrics : List (String × PyCell) := []
  content_hash : String := ""
deriving DecidableEq

/-- The timestamp-ordering loop of `validate_lineage_chain`: walk the steps
with a running `prev_timestamp` (initially the record extraction
timestamp, a datetime); a truthy step timestamp is compared against
`prev` (`Except.error` when `prev` holds a falsy value, as Python raises
`TypeError` there), a falsy one skips the comparison; either way the step
timestamp becomes the new `prev`. -/
def tsOrderScan : TsField → List PipelineStep → Except Unit Bool
  | _, [] => .ok true
  | prev, s :: rest =>
    match s.timestamp with
    | .dt t =>
      match prev with
      | .dt p => if t < p then .ok false else tsOrderScan (.dt t) rest
      | _ => .error ()
    | _ => tsOrderScan .falsy rest

/-- Presence of the four required keys in one step, in the checked order
`step`, `input_hash`, `output_hash`, `timestamp`. -/
def hasRequiredFields (s : PipelineStep) : Bool :=
  s.step.isSome && s.input_hash.isSome && s.output_hash.isSome
    && !(s.timestamp == TsField.absent)

/-- The required-fields loop over the whole pipeline. -/
def fieldsOkPipeline (l : List PipelineStep) : Bool := l.all hasRequiredFields

/-- The hash-continuity loop: every step output hash equals the next
step input hash. -/
def hashContinuity : List PipelineStep → Bool
  | s1 :: s2 :: rest => (s1.output_hash == s2.input_hash) && hashContinuity (s2 :: rest)
  | _ => true

/-- The final check of `validate_lineage_chain`: `content_hash` equals the
last step `output_hash` (vacuous on an empty pipeline, where the code
guards with a length test). -/
def contentHashOk (r : DataLineage) : Bool :=
  match r.transformation_pipeline.getLast? with
  | some last => last.output_hash == some r.content_hash
  | none => true

/-- Embedding of `DataLineage.validate_lineage_chain`: empty check, then
timestamp ordering, then required fields, then hash continuity, then the
final content-hash comparison, in the order of the source; `Except.error`
marks the `TypeError` Python raises when a truthy timestamp is compared
against a falsy `prev_timestamp`. -/
def validate_lineage_chain (r : DataLineage) : Except Unit Bool :=
  if r.transformation_pipeline.isEmpty then .ok false
  else
    match tsOrderScan (.dt r.extraction_timestamp) r.transformation_pipeline with
    | .error e => .error e
    | .ok false => .ok false
    | .ok true =>
      if !(fieldsOkPipeline r.transformation_pipeline) then .ok false
      else if !(hashContinuity r.transformation_pipeline) then .ok false
      else if !(contentHashOk r) then .ok false
      else .ok true

/-!
Part 3 models the stateful `LineageTracker` session operations the claims
need: `track_transformation` and `link_to_model`, each returning its
Python result (or raised exception), the tracker state after the call,
and the storage-collaborator calls performed. `datetime.now()` is passed
in explicitly as `now`. A fresh tracker has `current_lineage = none`.
-/

/-- Exceptions the lineage session raises. -/
inductive PyExc
  | valueError (msg : String)
deriving DecidableEq

/-- The immutable dataset-to-model link record built by `link_to_model`. -/
structure LinkRecord where
  dataset_id : String
  model_id : String
  linked_at : Nat
  dataset_hash : String
deriving DecidableEq

/-- Storage-collaborator calls the two session operations can make. -/
inductive StorageCall
  | updateLineage (table : String) (match_dataset_id : String)
      (transformation_pipeline : List PipelineStep) (content_hash : String)
  | insertLink (table : String) (link : LinkRecord)
deriving DecidableEq

/-- The mutable session state: the single in-progress lineage, if any. -/
structure LineageTracker where
  current_lineage : Option DataLineage
deriving DecidableEq

/-- Embedding of `LineageTracker.track_transformation`: raises `ValueError`
when no lineage is active; otherwise hashes input and output, appends the
transformation step (with row-count and column-set deltas), updates
`content_hash`, and issues one storage `update`. -/
def track_transformation (now : Nat) (tr : LineageTracker) (step_name : String)
    (input_data output_data : DataFrame) (transformation_code : String) :
    Except PyExc Unit × LineageTracker × List StorageCall :=
  match tr.current_lineage with
  | none =>
    (.error (.valueError "Must call track_extraction() before track_transformation()"), tr, [])
  | some lin =>
    let input_hash := stable_hash (.frame input_data)
    let output_hash := stable_hash (.frame output_data)
    let tstep : PipelineStep :=
      { step := some step_name
        input_hash := some input_hash
        output_hash := some output_hash
        transformation_code := some transformation_code
        timestamp := .dt now
        row_count_before := some (input_data.rows.length : Int)
        row_count_after := some (output_data.rows.length : Int)
        rows_removed := some ((input_data.rows.length : Int) - (output_data.rows.length : Int))
        columns_added := some (output_data.columns.filter
          (fun c => !(input_data.columns.contains c)))
        columns_removed := some (input_data.columns.filter
          (fun c => !(output_data.columns.contains c))) }
    let lin2 := { lin with
        transformation_pipeline := lin.transformation_pipeline ++ [tstep],
        content_hash := output_hash }
    (.ok (), { current_lineage := some lin2 },
      [.updateLineage "data_lineage" lin2.dataset_id lin2.transformation_pipeline
        lin2.content_hash])

/-- Embedding of `LineageTracker.link_to_model`: raises `ValueError` when no
lineage is active; otherwise builds the link record and issues one
storage `insert`. -/
def link_to_model (now : Nat) (tr : LineageTracker) (model_id : String) :
    Except PyExc LinkRecord × LineageTracker × List StorageCall :=
  match tr.current_lineage with
  | none => (.error (.valueError "No active lineage to link"), tr, [])
  | some lin =>
    let link_record : LinkRecord :=
      { dataset_id := lin.dataset_id
        model_id := model_id
        linked_at := now
        dataset_hash := lin.content_hash }
    (.ok link_record, tr, [.insertLink "model_data_lineage" link_record])

/-!
Part 4 models the compliance gate of src/compliance_gate.py. Thresholds
and fairness metrics are exact rationals; datetimes are integer day
indices, with `datetime.now()` supplied once through the environment as
`now` (ages in days are plain differences, as `timedelta.days` computes
them for the day-granular instants modelled here); the database and the
model registry are environment functions returning either rows/metadata
or a raised exception. Each `_verify_*` check catches its collaborator
exceptions itself, as in the source, and so returns a plain outcome
pair; the evaluator-level `try/except` is still embedded through the
`Except`-valued `check_function` field.
-/

/-- EU AI Act risk classifications. -/
inductive RiskLevel
  | unacceptable
  | high
  | limited
  | minimal
deriving DecidableEq

/-- The `.value` string of a risk level. -/
def RiskLevel.value : RiskLevel → String
  | .unacceptable => "unacceptable"
  | .high => "high"
  | .limited => "limited"
  | .minimal => "minimal"

/-- Configurable thresholds with the constructor defaults. -/
structure GateConfig where
  bias_threshold : Rat := mkRat 1 10
  min_accuracy_high : Rat := mkRat 17 20
  min_accuracy_limited : Rat := mkRat 3 4
  min_f1_high : Rat := mkRat 4 5
  min_f1_limited : Rat := mkRat 7 10
  max_risk_assessment_age : Int := 180
  max_security_assessment_age : Int := 90

/-- Nested `full_metadata` block of a registry compliance report; an absent
block or key behaves as the empty dict the source defaults to. -/
structure FullMetadata where
  bias_assessment : List (String × List (String × Rat)) := []
  oversight_measures : List String := []
  accuracy_metrics : List (String × Rat) := []
deriving DecidableEq

/-- Metadata document returned by `registry.get_compliance_report`. -/
structure ModelMetadata where
  data_lineage_id : Option String := none
  model_card_id : Option String := none
  human_oversight_enabled : Bool := false
  security_assessment_id : Option String := none
  full_metadata : FullMetadata := {}
deriving DecidableEq

/-- Python truth test of an optional string: falsy when absent or empty. -/
def strFalsy : Option String → Bool
  | none => true
  | some s => s == ""

/-- Row of the `risk_assessments` table; `completed_at = none` models a row
whose key is missing or ill-typed, which the source turns into the
invalid-data failure via its caught `KeyError`/`TypeError`. -/
structure RiskRow where
  completed_at : Option Int := none
  assessment_complete : Bool := false
deriving DecidableEq

/-- Row of the `security_assessments` table. -/
structure SecurityRow where
  completed_at : Option Int := none
deriving DecidableEq

/-- Row of the `data_lineage` table as the gate reads it. -/
structure LineageRow where
  transformation_pipeline : List PipelineStep := []
deriving DecidableEq

/-- One entry of the report lists `passed`/`warnings`/`failures`. -/
structure CheckResult where
  check_name : String
  description : String
  passed : Bool
  message : String
  blocking : Bool
deriving DecidableEq

/-- The report `validate_deployment` returns. -/
structure ComplianceReport where
  model_id : String
  risk_level : String
  can_deploy : Bool
  checks_run : Nat
  passed : List CheckResult
  warnings : List CheckResult
  failures : List CheckResult
  timestamp : String
deriving DecidableEq

/-- The audit-trail record `_log_validation_attempt` inserts. -/
structure AuditEntry where
  event_type : String
  model_id : String
  can_deploy : Bool
  checks_run : Nat
  failures_count : Nat
  full_report : String
  timestamp : Int
deriving DecidableEq

/-- External collaborators and the clock: the model registry, the three
queried tables, and the audit-log insert, each able to raise. -/
structure GateEnv where
  get_compliance_report : String → Except String ModelMetadata
  query_risk_assessments : String → Except String (List RiskRow)
  query_data_lineage : String → Except String (List LineageRow)
  query_security_assessments : String → Except String (List SecurityRow)
  insert_audit_log : AuditEntry → Except String Unit
  now : Int

/-- Round a rational to the nearest integer, ties to even, as the Python
fixed-point float formatting rounds. -/
def roundHalfEven (q : Rat) : Int :=
  let f := q.floor
  let frac := q - (f : Rat)
  if frac < 1/2 then f
  else if 1/2 < frac then f + 1
  else if f % 2 = 0 then f else f + 1

/-- Python `:.2%` formatting of an exact rational. -/
def fmtPct (q : Rat) : String :=
  let n := roundHalfEven (q * 10000)
  let sign := if n < 0 then "-" else ""
  let m := n.natAbs
  sign ++ toString (m / 100) ++ "."
    ++ (if m % 100 < 10 then "0" else "") ++ toString (m % 100) ++ "%"

/-- Python `repr` of a list of plain identifier strings. -/
def pyReprStrList (xs : List String) : String :=
  "[" ++ String.intercalate ", " (xs.map (fun s => "\x27" ++ s ++ "\x27")) ++ "]"

/-- Model of `datetime.isoformat()` for the integer instants used here. -/
def dt_isoformat (t : Int) : String := toString t

/-- Embedding of `ComplianceGate._verify_risk_assessment`. -/
def verify_risk_assessment (env : GateEnv) (cfg : GateConfig) (model_id : String)
    (risk_level : RiskLevel) : Bool × String :=
  match env.query_risk_assessments model_id with
  | .error e => (false, "Database error: " ++ e)
  | .ok assessment =>
    match assessment with
    | [] => (false, "No risk assessment found")
    | row0 :: _ =>
      let max_age_days : Int :=
        if risk_level = RiskLevel.high then cfg.max_risk_assessment_age else 365
      match row0.completed_at with
      | none => (false, "Invalid assessment data: \x27completed_at\x27")
      | some completed_at =>
        let age_days := env.now - completed_at
        if max_age_days < age_days then
          (false, "Assessment " ++ toString age_days ++ " days old (max: "
            ++ toString max_age_days ++ ")")
        else if !row0.assessment_complete then
          (false, "Assessment marked as incomplete")
        else (true, "Valid assessment (age: " ++ toString age_days ++ " days)")

/-- Missing required keys of a step, in the order checked by the gate
`step`, `timestamp`, `input_hash`, `output_hash`. -/
def gateMissingFields (s : PipelineStep) : List String :=
  (if s.step.isNone then ["step"] else [])
    ++ (if s.timestamp == TsField.absent then ["timestamp"] else [])
    ++ (if s.input_hash.isNone then ["input_hash"] else [])
    ++ (if s.output_hash.isNone then ["output_hash"] else [])

/-- First step with missing required keys, with its index. -/
def firstMissingStep : Nat → List PipelineStep → Option (Nat × List String)
  | _, [] => none
  | i, s :: rest =>
    if (gateMissingFields s).isEmpty then firstMissingStep (i + 1) rest
    else some (i, gateMissingFields s)

/-- Embedding of `ComplianceGate._verify_data_lineage`. -/
def verify_data_lineage (env : GateEnv) (_cfg : GateConfig) (model_id : String)
    (_risk_level : RiskLevel) : Bool × String :=
  match env.get_compliance_report model_id with
  | .error e => (false, "Could not retrieve model metadata: " ++ e)
  | .ok md =>
    if strFalsy md.data_lineage_id then (false, "No data lineage ID")
    else
      let lineage_id := md.data_lineage_id.getD ""
      match env.query_data_lineage lineage_id with
      | .error e => (false, "Database error: " ++ e)
      | .ok rows =>
        match rows with
        | [] => (false, "Lineage " ++ lineage_id ++ " not found")
        | row0 :: _ =>
          let tp := row0.transformation_pipeline
          if tp.length == 0 then (false, "No transformation steps recorded")
          else
            match firstMissingStep 0 tp with
            | some im =>
              (false, "Step " ++ toString im.1 ++ " missing fields: " ++ pyReprStrList im.2)
            | none => (true, "Complete lineage with " ++ toString tp.length ++ " steps")

/-- The metric the bias check reads for one attribute:
`demographic_parity_difference`, else `disparate_impact`, else 1.0. -/
def bias_metric_value (metrics : List (String × Rat)) : Rat :=
  match metrics.lookup "demographic_parity_difference" with
  | some v => v
  | none => (metrics.lookup "disparate_impact").getD 1

/-- Embedding of `ComplianceGate._verify_bias_thresholds`. -/
def verify_bias_thresholds (env : GateEnv) (cfg : GateConfig) (model_id : String)
    (_risk_level : RiskLevel) : Bool × String :=
  match env.get_compliance_report model_id with
  | .error e => (false, "Could not retrieve model metadata: " ++ e)
  | .ok md =>
    let ba := md.full_metadata.bias_assessment
    if ba.isEmpty then (false, "No bias assessment results found")
    else
      let failed_attributes := ba.filterMap (fun av =>
        let demographic_parity := bias_metric_value av.2
        if cfg.bias_threshold < demographic_parity then
          some (av.1 ++ ": " ++ fmtPct demographic_parity ++ " (threshold: "
            ++ fmtPct cfg.bias_threshold ++ ")")
        else none)
      if !failed_attributes.isEmpty then
        (false, "Bias thresholds exceeded for: " ++ String.intercalate ", " failed_attributes)
      else (true, "Bias check passed for " ++ toString ba.length ++ " attributes")

/-- Embedding of `ComplianceGate._verify_documentation`. -/
def verify_documentation (env : GateEnv) (_cfg : GateConfig) (model_id : String)
    (_risk_level : RiskLevel) : Bool × String :=
  match env.get_compliance_report model_id with
  | .error e => (false, "Could not retrieve model metadata: " ++ e)
  | .ok md =>
    if strFalsy md.model_card_id then (false, "No model card")
    else (true, "Documentation complete")

/-- Embedding of `ComplianceGate._verify_oversight_config`. -/
def verify_oversight_config (env : GateEnv) (_cfg : GateConfig) (model_id : String)
    (_risk_level : RiskLevel) : Bool × String :=
  match env.get_compliance_report model_id with
  | .error e => (false, "Could not retrieve model metadata: " ++ e)
  | .ok md =>
    if !md.human_oversight_enabled then (false, "Human oversight not enabled")
    else if md.full_metadata.oversight_measures.isEmpty then
      (false, "No oversight measures documented")
    else (true, "Oversight configured with "
      ++ toString md.full_metadata.oversight_measures.length ++ " measures")

/-- Embedding of `ComplianceGate._verify_performance`. -/
def verify_performance (env : GateEnv) (cfg : GateConfig) (model_id : String)
    (risk_level : RiskLevel) : Bool × String :=
  match env.get_compliance_report model_id with
  | .error e => (false, "Could not retrieve model metadata: " ++ e)
  | .ok md =>
    let accuracy_metrics := md.full_metadata.accuracy_metrics
    if accuracy_metrics.isEmpty then (false, "No performance metrics")
    else
      let min_accuracy :=
        if risk_level = RiskLevel.high then cfg.min_accuracy_high else cfg.min_accuracy_limited
      let min_f1 :=
        if risk_level = RiskLevel.high then cfg.min_f1_high else cfg.min_f1_limited
      let accuracy := (accuracy_metrics.lookup "accuracy").getD 0
      let f1_score := (accuracy_metrics.lookup "f1_score").getD
        ((accuracy_metrics.lookup "f1").getD 0)
      let issues :=
        (if accuracy < min_accuracy then
          ["Accuracy " ++ fmtPct accuracy ++ " below " ++ fmtPct min_accuracy] else [])
        ++ (if f1_score < min_f1 then
          ["F1 score " ++ fmtPct f1_score ++ " below " ++ fmtPct min_f1] else [])
      if !issues.isEmpty then (false, String.intercalate "; " issues)
      else (true, "Performance passed (accuracy: " ++ fmtPct accuracy
        ++ ", F1: " ++ fmtPct f1_score ++ ")")

/-- Embedding of `ComplianceGate._verify_security`. -/
def verify_security (env : GateEnv) (cfg : GateConfig) (model_id : String)
    (_risk_level : RiskLevel) : Bool × String :=
  match env.get_compliance_report model_id with
  | .error e => (false, "Could not retrieve model metadata: " ++ e)
  | .ok md =>
    if strFalsy md.security_assessment_id then (false, "No security assessment performed")
    else
      let security_id := md.security_assessment_id.getD ""
      match env.query_security_assessments security_id with
      | .error e => (false, "Error checking security assessment: " ++ e)
      | .ok rows =>
        match rows with
        | [] => (false, "Security assessment " ++ security_id ++ " not found")
        | row0 :: _ =>
          match row0.completed_at with
          | none => (false, "Error checking security assessment: \x27completed_at\x27")
          | some assessed_at =>
            let age_days := env.now - assessed_at
            if cfg.max_security_assessment_age < age_days then
              (false, "Security assessment " ++ toString age_days ++ " days old (max: "
                ++ toString cfg.max_security_assessment_age ++ ")")
            else (true, "Security assessment completed " ++ toString age_days ++ " days ago")

/-- Definition of a single compliance check; the `Except` result of
`check_function` models a per-rule evaluator that may raise. -/
structure ComplianceCheck where
  name : String
  required_for_risk_levels : List RiskLevel
  check_function : String → RiskLevel → Except String (Bool × String)
  blocking : Bool
  description : String

/-- Embedding of `ComplianceGate._define_checks`: the fixed, ordered rule
catalog with its tier applicability and blocking flags. -/
def define_checks (env : GateEnv) (cfg : GateConfig) : List ComplianceCheck :=
  [{ name := "risk_assessment_complete"
     required_for_risk_levels := [RiskLevel.high, RiskLevel.limited]
     check_function := fun m t => .ok (verify_risk_assessment env cfg m t)
     blocking := true
     description := "Valid risk assessment must exist and be recent" },
   { name := "data_lineage_verified"
     required_for_risk_levels := [RiskLevel.high]
     check_function := fun m t => .ok (verify_data_lineage env cfg m t)
     blocking := true
     description := "Complete data lineage from source to model" },
   { name := "bias_assessment_passed"
     required_for_risk_levels := [RiskLevel.high]
     check_function := fun m t => .ok (verify_bias_thresholds env cfg m t)
     blocking := true
     description := "Bias metrics within acceptable thresholds" },
   { name := "technical_documentation_complete"
     required_for_risk_levels := [RiskLevel.high, RiskLevel.limited]
     check_function := fun m t => .ok (verify_documentation env cfg m t)
     blocking := true
     description := "Model card and technical docs complete" },
   { name := "human_oversight_configured"
     required_for_risk_levels := [RiskLevel.high]
     check_function := fun m t => .ok (verify_oversight_config env cfg m t)
     blocking := true
     description := "Human oversight measures configured" },
   { name := "performance_meets_threshold"
     required_for_risk_levels := [RiskLevel.high, RiskLevel.limited]
     check_function := fun m t => .ok (verify_performance env cfg m t)
     blocking := true
     description := "Model accuracy meets minimum standards" },
   { name := "security_scan_passed"
     required_for_risk_levels := [RiskLevel.high]
     check_function := fun m t => .ok (verify_security env cfg m t)
     blocking := false
     description := "Security vulnerability scan completed" }]

/-- The check-result dict the evaluator builds for one rule: the rule
outcome when evaluation returns, or the converted blocking failure when
it raises. -/
def evalCheckResult (mid : String) (tier : RiskLevel) (c : ComplianceCheck) : CheckResult :=
  match c.check_function mid tier with
  | .ok pm => ⟨c.name, c.description, pm.1, pm.2, c.blocking⟩
  | .error e => ⟨c.name, c.description, false, "Check failed: " ++ e, true⟩

/-- The evaluator loop of `validate_deployment`: skip inapplicable rules,
evaluate the rest in catalog order, and partition the results into the
passed, warnings, and failures lists. -/
def runChecksLoop (mid : String) (tier : RiskLevel) :
    List ComplianceCheck → List CheckResult × List CheckResult × List CheckResult
  | [] => ([], [], [])
  | c :: rest =>
    if tier ∈ c.required_for_risk_levels then
      let res := evalCheckResult mid tier c
      let pwf := runChecksLoop mid tier rest
      if res.passed then (res :: pwf.1, pwf.2.1, pwf.2.2)
      else if res.blocking then (pwf.1, pwf.2.1, res :: pwf.2.2)
      else (pwf.1, res :: pwf.2.1, pwf.2.2)
    else runChecksLoop mid tier rest

/-- The report `validate_deployment` assembles before logging. -/
def buildReport (checks : List ComplianceCheck) (now : Int) (mid : String)
    (tier : RiskLevel) : ComplianceReport :=
  let pwf := runChecksLoop mid tier checks
  { model_id := mid
    risk_level := tier.value
    can_deploy := pwf.2.2.length == 0
    checks_run := (checks.filter (fun c => decide (tier ∈ c.required_for_risk_levels))).length
    passed := pwf.1
    warnings := pwf.2.1
    failures := pwf.2.2
    timestamp := dt_isoformat now }

/-- JSON rendering of a string, shared by the audit serialization. -/
def jsonStr (s : String) : String := cellJson (.pstr s)

/-- JSON rendering of a boolean. -/
def jsonBool (b : Bool) : String := if b then "true" else "false"

/-- JSON rendering of one check-result dict in its insertion order. -/
def checkResultJson (r : CheckResult) : String :=
  "\x7b\"check_name\": " ++ jsonStr r.check_name
    ++ ", \"description\": " ++ jsonStr r.description
    ++ ", \"passed\": " ++ jsonBool r.passed
    ++ ", \"message\": " ++ jsonStr r.message
    ++ ", \"blocking\": " ++ jsonBool r.blocking ++ "\x7d"

/-- JSON rendering of a list of check results. -/
def checkListJson (l : List CheckResult) : String :=
  "[" ++ joinComma (l.map checkResultJson) ++ "]"

/-- Model of `json.dumps(report)` with the insertion order of the report dict
and default separators. -/
def reportJson (r : ComplianceReport) : String :=
  "\x7b\"model_id\": " ++ jsonStr r.model_id
    ++ ", \"risk_level\": " ++ jsonStr r.risk_level
    ++ ", \"can_deploy\": " ++ jsonBool r.can_deploy
    ++ ", \"checks_run\": " ++ toString r.checks_run
    ++ ", \"passed\": " ++ checkListJson r.passed
    ++ ", \"warnings\": " ++ checkListJson r.warnings
    ++ ", \"failures\": " ++ checkListJson r.failures
    ++ ", \"timestamp\": " ++ jsonStr r.timestamp ++ "\x7d"

/-- The audit record `_log_validation_attempt` builds for a report. -/
def audit_entry_of (env : GateEnv) (mid : String) (report : ComplianceReport) : AuditEntry :=
  { event_type := "compliance_gate_validation"
    model_id := mid
    can_deploy := report.can_deploy
    checks_run := report.checks_run
    failures_count := report.failures.length
    full_report := reportJson report
    timestamp := env.now }

/-- Embedding of `ComplianceGate._log_validation_attempt`: one audit-log
insert, which may raise; the second component lists the entries the
storage collaborator actually persisted. -/
def log_validation_attempt (env : GateEnv) (mid : String) (report : ComplianceReport) :
    Except String Unit × List AuditEntry :=
  let audit_entry := audit_entry_of env mid report
  match env.insert_audit_log audit_entry with
  | .ok _ => (.ok (), [audit_entry])
  | .error e => (.error e, [])

/-- Embedding of `ComplianceGate.validate_deployment` over a check catalog:
run the applicable checks, build the report, log the attempt, and return
`(can_deploy, report)`; an exception from the audit-log insert
propagates as `Except.error`. The second component again lists the
persisted audit entries. -/
def validate_deployment (checks : List ComplianceCheck) (env : GateEnv) (mid : String)
    (tier : RiskLevel) : Except String (Bool × ComplianceReport) × List AuditEntry :=
  let report := buildReport checks env.now mid tier
  match log_validation_attempt env mid report with
  | (.ok _, writes) => (.ok (report.can_deploy, report), writes)
  | (.error e, writes) => (.error e, writes)

/-- The method `validate_deployment` of a `ComplianceGate` instance: the catalog is the
one `_define_checks` installs at construction. -/
def gate_validate_deployment (env : GateEnv) (cfg : GateConfig) (mid : String)
    (tier : RiskLevel) : Except String (Bool × ComplianceReport) × List AuditEntry :=
  validate_deployment (define_checks env cfg) env mid tier

/-!
Part 5: concrete fixtures for the scenario conjuncts, witnesses and
counterexamples: small environments and records with every collaborator
answer spelled out.
-/

/-- Registry metadata on which every high-tier check passes (security
assessment present and recent, bias parity 5 percent under the 10
percent default threshold). -/
def mdAllGood : ModelMetadata :=
  { data_lineage_id := some "ds1"
    model_card_id := some "mc1"
    human_oversight_enabled := true
    security_assessment_id := some "sec1"
    full_metadata :=
      { bias_assessment := [("gender", [("demographic_parity_difference", mkRat 1 20)])]
        oversight_measures := ["human_review"]
        accuracy_metrics := [("accuracy", mkRat 9 10), ("f1_score", mkRat 17 20)] } }

/-- The same metadata with no security assessment recorded. -/
def mdNoSecurity : ModelMetadata :=
  { mdAllGood with security_assessment_id := none }

/-- The same metadata with gender demographic parity at 15 percent. -/
def mdBiasHigh : ModelMetadata :=
  { mdAllGood with
    full_metadata := { mdAllGood.full_metadata with
      bias_assessment := [("gender", [("demographic_parity_difference", mkRat 3 20)])] } }

/-- The same metadata with an empty bias assessment. -/
def mdBiasEmpty : ModelMetadata :=
  { mdAllGood with
    full_metadata := { mdAllGood.full_metadata with bias_assessment := [] } }

/-- A lineage-table row whose single step carries all four required keys. -/
def lineageRowGood : LineageRow :=
  { transformation_pipeline :=
      [{ step := some "extraction"
         input_hash := some ""
         output_hash := some "h1"
         timestamp := TsField.dt 990 }] }

/-- Environment around a fixed metadata document: fresh risk and security
assessments, the good lineage row, a working audit log, clock at 1000. -/
def envWith (md : ModelMetadata) : GateEnv :=
  { get_compliance_report := fun _ => .ok md
    query_risk_assessments := fun _ => .ok [{ completed_at := some 995, assessment_complete := true }]
    query_data_lineage := fun _ => .ok [lineageRowGood]
    query_security_assessments := fun _ => .ok [{ completed_at := some 950 }]
    insert_audit_log := fun _ => .ok ()
    now := 1000 }

/-- Scenario environment for the non-blocking-isolation claim: only the
security scan can fail (no assessment recorded), every other applicable
check passes. -/
def envSec : GateEnv := envWith mdNoSecurity

/-- Scenario environment for the bias claim: gender parity 15 percent over
the 10 percent default threshold, everything else passing. -/
def envBias : GateEnv := envWith mdBiasHigh

/-- Environment whose registry reports an empty bias assessment. -/
def envBiasEmpty : GateEnv := envWith mdBiasEmpty

/-- Environment whose audit-log insert always raises. -/
def envAuditFail : GateEnv :=
  { envWith mdAllGood with insert_audit_log := fun _ => .error "db down" }

/-- A valid two-step lineage record: hash-linked steps with increasing
timestamps and matching final content hash. -/
def lineageValid2 : DataLineage :=
  { dataset_id := "ds_ok"
    source_systems := ["src_db"]
    extraction_timestamp := 5
    transformation_pipeline :=
      [{ step := some "extraction"
         input_hash := some ""
         output_hash := some "h1"
         timestamp := TsField.dt 6 },
       { step := some "clean"
         input_hash := some "h1"
         output_hash := some "h2"
         timestamp := TsField.dt 7 }]
    content_hash := "h2" }

/-- A record meeting every hypothesis of the round-trip claim except that
the timestamp (5) of its single step precedes the record-level extraction
timestamp (10). -/
def lineageTsEarly : DataLineage :=
  { dataset_id := "ds_early"
    source_systems := ["src_db"]
    extraction_timestamp := 10
    transformation_pipeline :=
      [{ step := some "extraction"
         input_hash := some ""
         output_hash := some "h1"
         timestamp := TsField.dt 5 }]
    content_hash := "h1" }

/-- A record on which `validate_lineage_chain` raises: the timestamp key of the first step holds a falsy value, the timestamp key of the second step holds a datetime,
so the ordering loop compares a datetime against `None`. -/
def lineageRaises : DataLineage :=
  { dataset_id := "ds_raise"
    source_systems := ["src_db"]
    extraction_timestamp := 5
    transformation_pipeline :=
      [{ step := some "extraction"
         input_hash := some ""
         output_hash := some "h1"
         timestamp := TsField.falsy },
       { step := some "clean"
         input_hash := some "h1"
         output_hash := some "h2"
         timestamp := TsField.dt 7 }]
    content_hash := "h2" }

/-- A tracker on which no extraction has been recorded. -/
def freshTracker : LineageTracker := { current_lineage := none }

/-- Two one-row frames with the same logical content, columns in opposite
orders. -/
def dfColsBA : DataFrame :=
  { columns := ["b", "a"], rows := [[("b", PyCell.pint 4), ("a", PyCell.pint 1)]] }

/-- The column-reordered counterpart of `dfColsBA`. -/
def dfColsAB : DataFrame :=
  { columns := ["a", "b"], rows := [[("a", PyCell.pint 1), ("b", PyCell.pint 4)]] }

/-!
Part 6: derived definitions used to state the claims: tamper operations on
lineage records, the applicable-rule view of the catalog, and the report
and audit entry a gate run produces.
-/

/-- Replace the element at an index, leaving the rest of the list alone. -/
def modifyNth {α : Type} (f : α → α) (n : Nat) : List α → List α
  | [] => []
  | a :: rest =>
    match n with
    | 0 => f a :: rest
    | m + 1 => a :: modifyNth f m rest

/-- Overwrite a step `input_hash` with a given string. -/
def setInputHash (v : String) (s : PipelineStep) : PipelineStep :=
  { s with input_hash := some v }

/-- The record with the `input_hash` of step `n` overwritten by `v`. -/
def tamperInputHash (r : DataLineage) (n : Nat) (v : String) : DataLineage :=
  { r with transformation_pipeline := modifyNth (setInputHash v) n r.transformation_pipeline }

/-- The record with its `content_hash` overwritten by `v`. -/
def withContentHash (r : DataLineage) (v : String) : DataLineage :=
  { r with content_hash := v }

/-- The datetime instant of a step timestamp, for steps known to carry one. -/
def tsVal (s : PipelineStep) : Nat :=
  match s.timestamp with
  | .dt t => t
  | _ => 0

/-- Whether a timestamp field holds a (truthy) datetime. -/
def isDt : TsField → Bool
  | .dt _ => true
  | _ => false

/-- Catalog rules applicable to a tier, in catalog order. -/
def applicableChecks (checks : List ComplianceCheck) (tier : RiskLevel) : List ComplianceCheck :=
  checks.filter (fun c => decide (tier ∈ c.required_for_risk_levels))

/-- The check-result entries a gate run produces, in catalog order. -/
def gateEntries (env : GateEnv) (cfg : GateConfig) (mid : String) (tier : RiskLevel) :
    List CheckResult :=
  (applicableChecks (define_checks env cfg) tier).map (evalCheckResult mid tier)

/-- The report a gate run assembles. -/
def gateReport (env : GateEnv) (cfg : GateConfig) (mid : String) (tier : RiskLevel) :
    ComplianceReport :=
  buildReport (define_checks env cfg) env.now mid tier

/-- The audit entry a gate run offers to the storage collaborator. -/
def gateAuditEntry (env : GateEnv) (cfg : GateConfig) (mid : String) (tier : RiskLevel) :
    AuditEntry :=
  audit_entry_of env mid (gateReport env cfg mid tier)

/-- Environment on which every check passes, used for the minimal-tier and
audit-logging witnesses. -/
def envGood : GateEnv := envWith mdAllGood

/-- The report of the security-scan scenario run. -/
def rSec : ComplianceReport := gateReport envSec {} "m1" RiskLevel.high

/-- The report of the bias scenario run. -/
def rBias : ComplianceReport := gateReport envBias {} "m2" RiskLevel.high

/-- The report of a minimal-tier run on the all-good environment. -/
def rMin : ComplianceReport := gateReport envGood {} "m0" RiskLevel.minimal

/-!
Theorems. First the helper lemmas about the lineage integrity check, then
the claim theorems.
-/

/-- The ordering loop accepts any pipeline of datetime-carrying steps whose
instants form a non-decreasing chain from the running previous value. -/
theorem tsOrderScan_ok_of_chain (p : Nat) (l : List PipelineStep)
    (hdt : ∀ s ∈ l, isDt s.timestamp = true)
    (hch : List.Chain (fun a b => a ≤ b) p (l.map tsVal)) :
    tsOrderScan (TsField.dt p) l = Except.ok true := by
  induction l generalizing p with
  | nil => rfl
  | cons s rest ih =>
    have hs := hdt s (List.mem_cons_self s rest)
    cases ht : s.timestamp with
    | absent => rw [ht] at hs; exact absurd hs (by simp [isDt])
    | falsy => rw [ht] at hs; exact absurd hs (by simp [isDt])
    | dt t =>
      simp only [List.map_cons, List.chain_cons] at hch
      have htv : tsVal s = t := by simp [tsVal, ht]
      rw [htv] at hch
      have hnotlt : ¬ t < p := not_lt.mpr hch.1
      simp only [tsOrderScan, ht, if_neg hnotlt]
      exact ih t (fun x hx => hdt x (List.mem_cons_of_mem s hx)) hch.2

/-- The ordering loop never raises on a pipeline of datetime-carrying steps. -/
theorem tsOrderScan_ok_of_dt (p : Nat) (l : List PipelineStep)
    (hdt : ∀ s ∈ l, isDt s.timestamp = true) :
    ∃ b, tsOrderScan (TsField.dt p) l = Except.ok b := by
  induction l generalizing p with
  | nil => exact ⟨true, rfl⟩
  | cons s rest ih =>
    have hs := hdt s (List.mem_cons_self s rest)
    cases ht : s.timestamp with
    | absent => rw [ht] at hs; exact absurd hs (by simp [isDt])
    | falsy => rw [ht] at hs; exact absurd hs (by simp [isDt])
    | dt t =>
      by_cases hlt : t < p
      · exact ⟨false, by simp [tsOrderScan, ht, if_pos hlt]⟩
      · obtain ⟨b, hb⟩ := ih t (fun x hx => hdt x (List.mem_cons_of_mem s hx))
        exact ⟨b, by simp [tsOrderScan, ht, if_neg hlt, hb]⟩

/-- Hash continuity holds when adjacent steps are output-to-input linked. -/
theorem hashContinuity_of_chain (l : List PipelineStep)
    (h : List.Chain' (fun a b => a.output_hash = b.input_hash) l) :
    hashContinuity l = true := by
  induction l with
  | nil => rfl
  | cons s rest ih =>
    cases rest with
    | nil => rfl
    | cons s2 rest2 =>
      rw [List.chain'_cons] at h
      simp only [hashContinuity, Bool.and_eq_true, beq_iff_eq]
      exact ⟨h.1, ih h.2⟩

/-- When the ordering loop accepts, the integrity check reduces to the
conjunction of the three remaining checks. -/
theorem validate_eq_ok_checks (r : DataLineage)
    (h1 : r.transformation_pipeline.isEmpty = false)
    (h2 : tsOrderScan (TsField.dt r.extraction_timestamp) r.transformation_pipeline =
      Except.ok true) :
    validate_lineage_chain r =
      Except.ok (fieldsOkPipeline r.transformation_pipeline
        && (hashContinuity r.transformation_pipeline && contentHashOk r)) := by
  unfold validate_lineage_chain
  rw [h1, h2]
  cases hf : fieldsOkPipeline r.transformation_pipeline <;>
    cases hc : hashContinuity r.transformation_pipeline <;>
      cases hh : contentHashOk r <;> simp

/-- A record the integrity check accepts satisfies each component check. -/
theorem validate_components (r : DataLineage)
    (h : validate_lineage_chain r = Except.ok true) :
    r.transformation_pipeline.isEmpty = false
    ∧ tsOrderScan (TsField.dt r.extraction_timestamp) r.transformation_pipeline = Except.ok true
    ∧ fieldsOkPipeline r.transformation_pipeline = true
    ∧ hashContinuity r.transformation_pipeline = true
    ∧ contentHashOk r = true := by
  unfold validate_lineage_chain at h
  by_cases he : r.transformation_pipeline.isEmpty
  · rw [if_pos he] at h
    exact absurd h (by simp)
  · rw [if_neg he] at h
    rw [Bool.not_eq_true] at he
    refine ⟨he, ?_⟩
    cases hscan : tsOrderScan (TsField.dt r.extraction_timestamp) r.transformation_pipeline with
    | error e => rw [hscan] at h; exact absurd h (by simp)
    | ok b =>
      cases b with
      | false => rw [hscan] at h; exact absurd h (by simp)
      | true =>
        rw [hscan] at h
        refine ⟨rfl, ?_⟩
        by_cases hf : fieldsOkPipeline r.transformation_pipeline
        · by_cases hc : hashContinuity r.transformation_pipeline
          · by_cases hh : contentHashOk r
            · exact ⟨hf, hc, hh⟩
            · rw [if_neg (by simp [hf]), if_neg (by simp [hc]), if_pos (by simp [hh])] at h
              exact absurd h (by simp)
          · rw [if_neg (by simp [hf]), if_pos (by simp [hc])] at h
            exact absurd h (by simp)
        · rw [if_pos (by simp [hf])] at h
          exact absurd h (by simp)

/-- Claim C3 (amended): the round-trip property holds once the timestamps also do
not precede the record-level extraction timestamp. For every lineage
record with a non-empty pipeline whose steps each carry the fields
`step`, `input_hash`, `output_hash` and a datetime `timestamp`, with
timestamps non-decreasing from the record `extraction_timestamp`
through the successive steps, where each step `input_hash` equals the
previous step `output_hash` and `content_hash` equals the last step
`output_hash`, `validate_lineage_chain` returns true. -/
theorem validate_lineage_chain_roundtrip (r : DataLineage)
    (hne : r.transformation_pipeline ≠ [])
    (hdt : ∀ s ∈ r.transformation_pipeline, isDt s.timestamp = true)
    (hflds : ∀ s ∈ r.transformation_pipeline,
      s.step.isSome ∧ s.input_hash.isSome ∧ s.output_hash.isSome)
    (hch : List.Chain (fun a b => a ≤ b) r.extraction_timestamp
      (r.transformation_pipeline.map tsVal))
    (hcont : List.Chain' (fun a b => a.output_hash = b.input_hash) r.transformation_pipeline)
    (hlast : (r.transformation_pipeline.getLast hne).output_hash = some r.content_hash) :
    validate_lineage_chain r = Except.ok true := by
  have h1 : r.transformation_pipeline.isEmpty = false := by
    simp [List.isEmpty_iff, hne]
  have h2 := tsOrderScan_ok_of_chain r.extraction_timestamp r.transformation_pipeline hdt hch
  rw [validate_eq_ok_checks r h1 h2]
  have hf : fieldsOkPipeline r.transformation_pipeline = true := by
    rw [fieldsOkPipeline, List.all_eq_true]
    intro s hs
    have hd := hdt s hs
    obtain ⟨hstep, hin, hout⟩ := hflds s hs
    cases ht : s.timestamp with
    | absent => rw [ht] at hd; exact absurd hd (by simp [isDt])
    | falsy => rw [ht] at hd; exact absurd hd (by simp [isDt])
    | dt t => simp [hasRequiredFields, hstep, hin, hout, ht]
  have hc := hashContinuity_of_chain r.transformation_pipeline hcont
  have hh : contentHashOk r = true := by
    rw [contentHashOk, List.getLast?_eq_getLast_of_ne_nil hne]
    simp [hlast]
  rw [hf, hc, hh]
  rfl

/-- Claim C3 counterexample: a record meeting every hypothesis of the claim as
frozen — non-empty pipeline, all four fields carried, (vacuously)
non-decreasing step timestamps, hash continuity, matching final content
hash — on which `validate_lineage_chain` nevertheless returns false,
because the single step timestamp (5) precedes the record-level
extraction timestamp (10). -/
theorem validate_lineage_chain_roundtrip_needs_extraction_ts :
    lineageTsEarly.transformation_pipeline ≠ []
    ∧ fieldsOkPipeline lineageTsEarly.transformation_pipeline = true
    ∧ hashContinuity lineageTsEarly.transformation_pipeline = true
    ∧ contentHashOk lineageTsEarly = true
    ∧ validate_lineage_chain lineageTsEarly = Except.ok false := by
  refine ⟨by decide, by decide, by decide, by decide, rfl⟩

/-- Witness for the amended round-trip claim at the concrete valid
two-step record. -/
theorem validate_lineage_chain_roundtrip_witness :
    validate_lineage_chain lineageValid2 = Except.ok true :=
  validate_lineage_chain_roundtrip lineageValid2 (by decide)
    (by decide) (by decide)
    (by
      have hm : lineageValid2.transformation_pipeline.map tsVal = [6, 7] := rfl
      rw [show lineageValid2.extraction_timestamp = 5 from rfl, hm]
      exact List.Chain.cons (by omega) (List.Chain.cons (by omega) List.Chain.nil))
    (by
      show List.Chain' (fun a b => a.output_hash = b.input_hash)
        lineageValid2.transformation_pipeline
      exact List.Chain.cons rfl List.Chain.nil)
    rfl

/-- Claim C5 (amended): the integrity check is a deterministic, I/O-free function
of the record state and returns a boolean on every record whose steps
all carry datetime timestamps; the falsy-timestamp tolerance the claim
asserts does not hold (see the counterexample). -/
theorem validate_lineage_chain_total_on_dt (r : DataLineage)
    (hdt : ∀ s ∈ r.transformation_pipeline, isDt s.timestamp = true) :
    ∃ b, validate_lineage_chain r = Except.ok b := by
  unfold validate_lineage_chain
  by_cases he : r.transformation_pipeline.isEmpty
  · exact ⟨false, by rw [if_pos he]⟩
  · rw [if_neg he]
    obtain ⟨b, hb⟩ := tsOrderScan_ok_of_dt r.extraction_timestamp r.transformation_pipeline hdt
    rw [hb]
    cases b with
    | false => exact ⟨false, rfl⟩
    | true =>
      by_cases hf : fieldsOkPipeline r.transformation_pipeline
      · by_cases hc : hashContinuity r.transformation_pipeline
        · by_cases hh : contentHashOk r
          · exact ⟨true, by rw [if_neg (by simp [hf]), if_neg (by simp [hc]),
              if_neg (by simp [hh])]⟩
          · exact ⟨false, by rw [if_neg (by simp [hf]), if_neg (by simp [hc]),
              if_pos (by simp [hh])]⟩
        · exact ⟨false, by rw [if_neg (by simp [hf]), if_pos (by simp [hc])]⟩
      · exact ⟨false, by rw [if_pos (by simp [hf])]⟩

/-- Claim C5 counterexample: on a record whose first step carries a falsy
timestamp and whose second step carries a datetime, the check raises
(`TypeError`: comparing a datetime against `None`) instead of returning
a boolean. -/
theorem validate_lineage_chain_raises :
    validate_lineage_chain lineageRaises = Except.error () := rfl

/-- Witness for the amended totality claim at the concrete valid record. -/
theorem validate_lineage_chain_total_witness :
    ∃ b, validate_lineage_chain lineageValid2 = Except.ok b :=
  validate_lineage_chain_total_on_dt lineageValid2 (by decide)

/-- Claim C10: the integrity check compares the first step timestamp against
the record-level `extraction_timestamp`: on a pipeline of
datetime-carrying steps whose first instant is strictly earlier than
the extraction timestamp, it returns false. -/
theorem validate_lineage_chain_first_step_before_extraction (r : DataLineage)
    (s0 : PipelineStep) (rest : List PipelineStep) (t0 : Nat)
    (hpl : r.transformation_pipeline = s0 :: rest)
    (hdt : ∀ s ∈ r.transformation_pipeline, isDt s.timestamp = true)
    (ht0 : s0.timestamp = TsField.dt t0)
    (hlt : t0 < r.extraction_timestamp) :
    validate_lineage_chain r = Except.ok false := by
  unfold validate_lineage_chain
  rw [hpl]
  have h2 : tsOrderScan (TsField.dt r.extraction_timestamp) (s0 :: rest) = Except.ok false := by
    simp [tsOrderScan, ht0, if_pos hlt]
  rw [h2]
  simp

/-- Witness for the extraction-timestamp comparison at the concrete early
record. -/
theorem validate_lineage_chain_first_step_before_extraction_witness :
    validate_lineage_chain lineageTsEarly = Except.ok false :=
  validate_lineage_chain_first_step_before_extraction lineageTsEarly
    { step := some "extraction", input_hash := some "", output_hash := some "h1",
      timestamp := TsField.dt 5 } [] 5 rfl (by decide) rfl (by decide)

/-- Mapping a projection unchanged by the modification commutes with
`modifyNth`. -/
theorem map_modifyNth {α β : Type} (f : α → α) (proj : α → β)
    (h : ∀ a, proj (f a) = proj a) :
    ∀ (n : Nat) (l : List α), (modifyNth f n l).map proj = l.map proj := by
  intro n l
  induction l generalizing n with
  | nil => simp [modifyNth]
  | cons a rest ih =>
    cases n with
    | zero => simp [modifyNth, h]
    | succ m => simp [modifyNth, ih]

/-- Modification preserves list length. -/
theorem length_modifyNth {α : Type} (f : α → α) :
    ∀ (n : Nat) (l : List α), (modifyNth f n l).length = l.length := by
  intro n l
  induction l generalizing n with
  | nil => simp [modifyNth]
  | cons a rest ih =>
    cases n with
    | zero => rfl
    | succ m => simp [modifyNth, ih]

/-- The ordering loop reads only the timestamp column. -/
theorem tsOrderScan_congr (p : TsField) (l₁ l₂ : List PipelineStep)
    (h : l₁.map PipelineStep.timestamp = l₂.map PipelineStep.timestamp) :
    tsOrderScan p l₁ = tsOrderScan p l₂ := by
  induction l₁ generalizing p l₂ with
  | nil =>
    cases l₂ with
    | nil => rfl
    | cons b bs => simp at h
  | cons a as ih =>
    cases l₂ with
    | nil => simp at h
    | cons b bs =>
      simp only [List.map_cons, List.cons.injEq] at h
      obtain ⟨hab, hrest⟩ := h
      show (match a.timestamp with
        | TsField.dt t =>
          match p with
          | TsField.dt q => if t < q then Except.ok false else tsOrderScan (TsField.dt t) as
          | _ => Except.error ()
        | _ => tsOrderScan TsField.falsy as) = tsOrderScan p (b :: bs)
      rw [hab]
      show (match b.timestamp with
        | TsField.dt t =>
          match p with
          | TsField.dt q => if t < q then Except.ok false else tsOrderScan (TsField.dt t) as
          | _ => Except.error ()
        | _ => tsOrderScan TsField.falsy as) = tsOrderScan p (b :: bs)
      cases hb : b.timestamp with
      | absent => simp only [tsOrderScan, hb]; exact ih TsField.falsy bs hrest
      | falsy => simp only [tsOrderScan, hb]; exact ih TsField.falsy bs hrest
      | dt t =>
        cases p with
        | absent => simp [tsOrderScan, hb]
        | falsy => simp [tsOrderScan, hb]
        | dt q =>
          by_cases hlt : t < q
          · simp [tsOrderScan, hb, if_pos hlt]
          · simp only [tsOrderScan, hb, if_neg hlt]
            exact ih (TsField.dt t) bs hrest

/-- Overwriting an `input_hash` preserves the required-fields check. -/
theorem hasRequiredFields_setInput (v : String) (s : PipelineStep)
    (h : hasRequiredFields s = true) : hasRequiredFields (setInputHash v s) = true := by
  simp only [hasRequiredFields, setInputHash, Bool.and_eq_true] at h ⊢
  exact ⟨⟨⟨h.1.1.1, rfl⟩, h.1.2⟩, h.2⟩

/-- Overwriting one step `input_hash` preserves field completeness. -/
theorem fieldsOk_modifyNth_setInput (v : String) :
    ∀ (n : Nat) (l : List PipelineStep), fieldsOkPipeline l = true →
      fieldsOkPipeline (modifyNth (setInputHash v) n l) = true := by
  intro n l
  induction l generalizing n with
  | nil => intro h; simpa [modifyNth] using h
  | cons a rest ih =>
    intro h
    rw [fieldsOkPipeline, List.all_cons, Bool.and_eq_true] at h
    cases n with
    | zero =>
      show fieldsOkPipeline (setInputHash v a :: rest) = true
      rw [fieldsOkPipeline, List.all_cons, Bool.and_eq_true]
      exact ⟨hasRequiredFields_setInput v a h.1, h.2⟩
    | succ m =>
      show fieldsOkPipeline (a :: modifyNth (setInputHash v) m rest) = true
      rw [fieldsOkPipeline, List.all_cons, Bool.and_eq_true]
      exact ⟨h.1, ih m h.2⟩

/-- Overwriting the `input_hash` at position `i + 1` with a value different
from the `output_hash` of step `i` breaks hash continuity. -/
theorem hashContinuity_break (v : String) :
    ∀ (i : Nat) (l : List PipelineStep) (hi : i + 1 < l.length),
      some v ≠ (l.get ⟨i, Nat.lt_of_succ_lt hi⟩).output_hash →
      hashContinuity (modifyNth (setInputHash v) (i + 1) l) = false := by
  intro i
  induction i with
  | zero =>
    intro l hi hv
    cases l with
    | nil => simp at hi
    | cons s1 rest1 =>
      cases rest1 with
      | nil => simp at hi
      | cons s2 rest =>
        show hashContinuity (s1 :: setInputHash v s2 :: rest) = false
        rw [hashContinuity]
        have hbeq : (s1.output_hash == (setInputHash v s2).input_hash) = false := by
          have hin : (setInputHash v s2).input_hash = some v := rfl
          rw [hin]
          exact beq_eq_false_iff_ne.mpr (Ne.symm hv)
        rw [hbeq, Bool.false_and]
  | succ j ih =>
    intro l hi hv
    cases l with
    | nil => simp at hi
    | cons s1 rest1 =>
      cases rest1 with
      | nil => simp at hi
      | cons s2 rest =>
        have hi2 : j + 1 < (s2 :: rest).length := by
          simp only [List.length_cons] at hi ⊢; omega
        have hv2 : some v ≠ ((s2 :: rest).get ⟨j, Nat.lt_of_succ_lt hi2⟩).output_hash := hv
        have ihres := ih (s2 :: rest) hi2 hv2
        show hashContinuity (s1 :: modifyNth (setInputHash v) (j + 1) (s2 :: rest)) = false
        show hashContinuity (s1 :: s2 :: modifyNth (setInputHash v) j rest) = false
        rw [hashContinuity]
        have : hashContinuity (s2 :: modifyNth (setInputHash v) j rest) = false := ihres
        rw [this, Bool.and_false]

/-- The last `output_hash` of a pipeline is unchanged by overwriting any
`input_hash`. -/
theorem getLast_output_modifyNth_setInput (v : String) :
    ∀ (n : Nat) (l : List PipelineStep),
      (modifyNth (setInputHash v) n l).getLast?.map PipelineStep.output_hash
        = l.getLast?.map PipelineStep.output_hash := by
  intro n l
  induction l generalizing n with
  | nil => simp [modifyNth]
  | cons a rest ih =>
    cases rest with
    | nil =>
      cases n with
      | zero => rfl
      | succ m => simp [modifyNth]
    | cons b rest2 =>
      cases n with
      | zero =>
        show ((setInputHash v a :: b :: rest2).getLast?.map PipelineStep.output_hash) = _
        rw [List.getLast?_cons_cons, List.getLast?_cons_cons]
      | succ m =>
        show ((a :: modifyNth (setInputHash v) m (b :: rest2)).getLast?.map
          PipelineStep.output_hash) = _
        cases hm : modifyNth (setInputHash v) m (b :: rest2) with
        | nil =>
          have := length_modifyNth (setInputHash v) m (b :: rest2)
          rw [hm] at this
          simp at this
        | cons c cs =>
          rw [List.getLast?_cons_cons, List.getLast?_cons_cons, ← hm]
          exact ih m

/-- Claim C4: on an accepted record with at least two steps, rewriting any
non-first step `input_hash` to a value different from its
predecessor `output_hash` makes the check return false, and rewriting
`content_hash` to a value different from the last step `output_hash`
makes the check return false. -/
theorem validate_lineage_chain_tamper_detected :
    ∀ (r : DataLineage), validate_lineage_chain r = Except.ok true →
      2 ≤ r.transformation_pipeline.length →
      ((∀ (i : Nat) (hi : i + 1 < r.transformation_pipeline.length) (v : String),
          some v ≠ (r.transformation_pipeline.get ⟨i, Nat.lt_of_succ_lt hi⟩).output_hash →
          validate_lineage_chain (tamperInputHash r (i + 1) v) = Except.ok false)
       ∧ (∀ v : String,
          some v ≠ r.transformation_pipeline.getLast?.bind PipelineStep.output_hash →
          validate_lineage_chain (withContentHash r v) = Except.ok false)) := by
  intro r hval hlen
  obtain ⟨hne, hscan, hflds, hcont, hcontent⟩ := validate_components r hval
  have hnonnil : r.transformation_pipeline ≠ [] := by
    intro hnil; rw [hnil] at hne; exact absurd hne (by simp)
  constructor
  · intro i hi v hv
    have hpl : (tamperInputHash r (i + 1) v).transformation_pipeline
        = modifyNth (setInputHash v) (i + 1) r.transformation_pipeline := rfl
    have h1 : (tamperInputHash r (i + 1) v).transformation_pipeline.isEmpty = false := by
      rw [hpl]
      cases hmn : modifyNth (setInputHash v) (i + 1) r.transformation_pipeline with
      | nil =>
        exfalso
        have hlm := length_modifyNth (setInputHash v) (i + 1) r.transformation_pipeline
        rw [hmn] at hlm
        simp only [List.length_nil] at hlm
        omega
      | cons a as => rfl
    have hts : (modifyNth (setInputHash v) (i + 1) r.transformation_pipeline).map
        PipelineStep.timestamp = r.transformation_pipeline.map PipelineStep.timestamp :=
      map_modifyNth (setInputHash v) PipelineStep.timestamp (fun a => rfl) (i + 1)
        r.transformation_pipeline
    have h2 : tsOrderScan (TsField.dt (tamperInputHash r (i + 1) v).extraction_timestamp)
        (tamperInputHash r (i + 1) v).transformation_pipeline = Except.ok true := by
      rw [hpl]
      exact (tsOrderScan_congr _ _ _ hts).trans hscan
    rw [validate_eq_ok_checks _ h1 h2, hpl]
    rw [hashContinuity_break v i r.transformation_pipeline hi hv]
    simp
  · intro v hv
    have h1 : (withContentHash r v).transformation_pipeline.isEmpty = false := hne
    have h2 : tsOrderScan (TsField.dt (withContentHash r v).extraction_timestamp)
        (withContentHash r v).transformation_pipeline = Except.ok true := hscan
    rw [validate_eq_ok_checks _ h1 h2]
    have hout : (r.transformation_pipeline.getLast hnonnil).output_hash
        = some r.content_hash := by
      rw [contentHashOk, List.getLast?_eq_getLast_of_ne_nil hnonnil] at hcontent
      simpa using hcontent
    have hlastout : r.transformation_pipeline.getLast?.bind PipelineStep.output_hash
        = some r.content_hash := by
      rw [List.getLast?_eq_getLast_of_ne_nil hnonnil]
      exact hout
    rw [hlastout] at hv
    have hvne : v ≠ r.content_hash := by simpa using hv
    have hch : contentHashOk (withContentHash r v) = false := by
      rw [contentHashOk]
      show (match r.transformation_pipeline.getLast? with
        | some last => last.output_hash == some v
        | none => true) = false
      rw [List.getLast?_eq_getLast_of_ne_nil hnonnil]
      show ((r.transformation_pipeline.getLast hnonnil).output_hash == some v) = false
      rw [hout]
      refine beq_eq_false_iff_ne.mpr ?_
      intro he
      exact hvne (Option.some.inj he).symm
    rw [hch]
    simp

/-- Witness for the tamper-detection claim at the concrete valid record:
both tampers flip validation to false. -/
theorem validate_lineage_chain_tamper_detected_witness :
    validate_lineage_chain (tamperInputHash lineageValid2 1 "bogus") = Except.ok false
    ∧ validate_lineage_chain (withContentHash lineageValid2 "bogus") = Except.ok false :=
  ⟨(validate_lineage_chain_tamper_detected lineageValid2 rfl (by decide)).1
      0 (by decide) "bogus" (by decide),
   (validate_lineage_chain_tamper_detected lineageValid2 rfl (by decide)).2
      "bogus" (by decide)⟩

/-- Strict key order on dict entries. -/
def keyLT (p q : String × PyCell) : Prop := p.1 < q.1

/-- Sorting is a permutation of the input dict. -/
theorem sortByKey_perm (row : Row) : (sortByKey row).Perm row :=
  List.perm_insertionSort keyLE row

/-- The sorted view is sorted by key. -/
theorem sortByKey_sorted (row : Row) : List.Sorted keyLE (sortByKey row) := by
  haveI : IsTotal (String × PyCell) keyLE := ⟨fun a b => le_total a.1 b.1⟩
  haveI : IsTrans (String × PyCell) keyLE := ⟨fun a b c h1 h2 => le_trans h1 h2⟩
  exact List.sorted_insertionSort keyLE row

/-- A key-sorted list with pairwise-distinct keys is strictly key-sorted. -/
theorem sorted_keyLT_of_sorted_keyLE (l : Row) (hs : List.Sorted keyLE l)
    (hnd : (l.map Prod.fst).Nodup) : List.Sorted keyLT l := by
  have hne : l.Pairwise (fun p q => p.1 ≠ q.1) := (List.pairwise_map).mp hnd
  exact (hs.and hne).imp (fun h => lt_of_le_of_ne h.1 h.2)

/-- Dicts with the same entries (in any order) and no duplicate keys have
the same key-sorted view: the canonical member order of
`json.dumps(..., sort_keys=True)` is order-independent. -/
theorem sortByKey_eq_of_perm (r₁ r₂ : Row) (hp : r₁.Perm r₂)
    (hnd : (r₁.map Prod.fst).Nodup) : sortByKey r₁ = sortByKey r₂ := by
  haveI : IsAntisymm (String × PyCell) keyLT :=
    ⟨fun a b h1 h2 => absurd (lt_trans h1 h2) (lt_irrefl _)⟩
  have hp₁ : (sortByKey r₁).Perm r₁ := sortByKey_perm r₁
  have hp₂ : (sortByKey r₂).Perm r₂ := sortByKey_perm r₂
  have hperm : (sortByKey r₁).Perm (sortByKey r₂) := hp₁.trans (hp.trans hp₂.symm)
  have hnd₁ : ((sortByKey r₁).map Prod.fst).Nodup := ((hp₁.map Prod.fst).nodup_iff).mpr hnd
  have hnd₂ : ((sortByKey r₂).map Prod.fst).Nodup := by
    have hmap : (r₂.map Prod.fst).Perm (r₁.map Prod.fst) := hp.symm.map Prod.fst
    exact ((hp₂.map Prod.fst).nodup_iff).mpr (hmap.nodup_iff.mpr hnd)
  exact List.eq_of_perm_of_sorted hperm
    (sorted_keyLT_of_sorted_keyLE _ (sortByKey_sorted r₁) hnd₁)
    (sorted_keyLT_of_sorted_keyLE _ (sortByKey_sorted r₂) hnd₂)

/-- Row objects of key-permuted dicts serialize identically. -/
theorem rowJson_congr (r₁ r₂ : Row) (hp : r₁.Perm r₂)
    (hnd : (r₁.map Prod.fst).Nodup) : rowJson r₁ = rowJson r₂ := by
  rw [rowJson, rowJson, sortByKey_eq_of_perm r₁ r₂ hp hnd]

/-- Rowwise serialization only depends on each row entry set. -/
theorem mapRowJson_congr : ∀ (a b : List Row), a.length = b.length →
    (∀ p ∈ a.zip b, p.1.Perm p.2 ∧ (p.1.map Prod.fst).Nodup) →
    a.map rowJson = b.map rowJson := by
  intro a
  induction a with
  | nil =>
    intro b hl _
    cases b with
    | nil => rfl
    | cons s ss => simp at hl
  | cons r rs ih =>
    intro b hl hz
    cases b with
    | nil => simp at hl
    | cons s ss =>
      have hhead := hz (r, s) (by simp [List.zip_cons_cons])
      have hrest : ∀ p ∈ rs.zip ss, p.1.Perm p.2 ∧ (p.1.map Prod.fst).Nodup :=
        fun p hp => hz p (by simp [List.zip_cons_cons]; right; exact hp)
      have hlen : rs.length = ss.length := by simpa using hl
      simp only [List.map_cons]
      rw [rowJson_congr r s hhead.1 hhead.2, ih ss hlen hrest]

/-- The records serialization of row-aligned, column-permuted tables agrees. -/
theorem recordsJson_congr (a b : List Row) (hl : a.length = b.length)
    (hz : ∀ p ∈ a.zip b, p.1.Perm p.2 ∧ (p.1.map Prod.fst).Nodup) :
    recordsJson a = recordsJson b := by
  rw [recordsJson, recordsJson, mapRowJson_congr a b hl hz]

/-- Each digest word renders as exactly eight hex characters. -/
theorem hex8_length (n : Nat) : (hex8 n).length = 8 := by
  show ((List.range 8).map (fun i => hexDigitChar ((n >>> ((7 - i) * 4)) % 16))).length = 8
  simp

/-- A SHA-256 hex digest has exactly 64 characters. -/
theorem sha256hex_length (s : String) : (sha256hex s).length = 64 := by
  simp only [sha256hex]
  simp [String.length_append, hex8_length]

/-- Claim C6: `_stable_hash` is invariant under column/key reordering of logically
equal tabular input, always produces a 64-character digest, and is
deterministic on repeated application. -/
theorem stable_hash_column_order_invariant :
    (∀ (a b : DataFrame), a.rows.length = b.rows.length →
      (∀ p ∈ a.rows.zip b.rows, p.1.Perm p.2 ∧ (p.1.map Prod.fst).Nodup) →
      stable_hash (PyData.frame a) = stable_hash (PyData.frame b))
    ∧ (∀ d : PyData, (stable_hash d).length = 64)
    ∧ (∀ d : PyData, stable_hash d = stable_hash d) := by
  refine ⟨?_, ?_, fun d => rfl⟩
  · intro a b hl hz
    show sha256hex (recordsJson a.rows) = sha256hex (recordsJson b.rows)
    rw [recordsJson_congr a.rows b.rows hl hz]
  · intro d
    cases d with
    | frame df => exact sha256hex_length _
    | dict d => exact sha256hex_length _
    | other s => exact sha256hex_length _

/-- Witness: the two concrete column-reordered frames hash identically. -/
theorem stable_hash_column_order_invariant_witness :
    stable_hash (PyData.frame dfColsBA) = stable_hash (PyData.frame dfColsAB) :=
  stable_hash_column_order_invariant.1 dfColsBA dfColsAB (by decide) (by decide)

/-- The evaluator loop is the partition of the entries of the applicable rules by
their `passed`/`blocking` fields. -/
theorem runChecksLoop_eq (mid : String) (tier : RiskLevel) :
    ∀ checks : List ComplianceCheck,
      runChecksLoop mid tier checks =
        (((applicableChecks checks tier).map (evalCheckResult mid tier)).filter
            (fun x => x.passed),
          ((applicableChecks checks tier).map (evalCheckResult mid tier)).filter
            (fun x => !x.passed && !x.blocking),
          ((applicableChecks checks tier).map (evalCheckResult mid tier)).filter
            (fun x => !x.passed && x.blocking)) := by
  intro checks
  induction checks with
  | nil => rfl
  | cons c rest ih =>
    by_cases hmem : tier ∈ c.required_for_risk_levels
    · cases hp : (evalCheckResult mid tier c).passed <;>
        cases hb : (evalCheckResult mid tier c).blocking <;>
          simp [runChecksLoop, if_pos hmem, ih, applicableChecks, List.filter_cons, hmem, hp, hb]
    · simp [runChecksLoop, if_neg hmem, ih, applicableChecks, List.filter_cons, hmem]

/-- Every entry lands in exactly one of the three partition lists. -/
theorem length_filter_partition (l : List CheckResult) :
    (l.filter (fun x => x.passed)).length
      + (l.filter (fun x => !x.passed && !x.blocking)).length
      + (l.filter (fun x => !x.passed && x.blocking)).length = l.length := by
  induction l with
  | nil => rfl
  | cons x xs ih =>
    cases hp : x.passed <;> cases hb : x.blocking <;>
      simp [List.filter_cons, hp, hb] <;> omega

/-- A successful audit insert makes `validate_deployment` return the built
report and persist exactly that one entry. -/
theorem validate_deployment_insert_ok (checks : List ComplianceCheck) (env : GateEnv)
    (mid : String) (tier : RiskLevel)
    (hok : env.insert_audit_log (audit_entry_of env mid
      (buildReport checks env.now mid tier)) = Except.ok ()) :
    validate_deployment checks env mid tier =
      (Except.ok ((buildReport checks env.now mid tier).can_deploy,
        buildReport checks env.now mid tier),
       [audit_entry_of env mid (buildReport checks env.now mid tier)]) := by
  simp [validate_deployment, log_validation_attempt, hok]

/-- A failing audit insert makes `validate_deployment` propagate the
exception with nothing persisted. -/
theorem validate_deployment_insert_error (checks : List ComplianceCheck) (env : GateEnv)
    (mid : String) (tier : RiskLevel) (e : String)
    (herr : env.insert_audit_log (audit_entry_of env mid
      (buildReport checks env.now mid tier)) = Except.error e) :
    validate_deployment checks env mid tier = (Except.error e, []) := by
  simp [validate_deployment, log_validation_attempt, herr]

/-- Whenever a gate run returns, the returned report is the built report,
the flag is its `can_deploy`, and exactly the audit entry was persisted. -/
theorem gate_result_ok (env : GateEnv) (cfg : GateConfig) (mid : String) (tier : RiskLevel)
    (can : Bool) (r : ComplianceReport) (writes : List AuditEntry)
    (h : gate_validate_deployment env cfg mid tier = (Except.ok (can, r), writes)) :
    r = gateReport env cfg mid tier ∧ can = r.can_deploy
      ∧ writes = [gateAuditEntry env cfg mid tier] := by
  cases hins : env.insert_audit_log (gateAuditEntry env cfg mid tier) with
  | ok u =>
    cases u
    have heq := validate_deployment_insert_ok (define_checks env cfg) env mid tier hins
    rw [gate_validate_deployment, heq] at h
    have h1 := congrArg Prod.fst h
    have h2 := congrArg Prod.snd h
    simp only [] at h1 h2
    injection h1 with h1
    injection h1 with hcan hr
    exact ⟨hr.symm, by rw [← hcan, hr], h2.symm⟩
  | error e =>
    have heq := validate_deployment_insert_error (define_checks env cfg) env mid tier e hins
    rw [gate_validate_deployment, heq] at h
    have h1 := congrArg Prod.fst h
    simp only [] at h1
    exact absurd h1 (by simp)

/-- Claim C1: a gate run evaluates exactly the applicable catalog rules, places
each entry in exactly one of the three report lists according to its
outcome and blocking flag (a raised evaluator becoming a blocking
failure entry, per `evalCheckResult`), and deploys iff no failures; and
in the concrete tier-high scenario where only the security scan fails,
deployment is allowed with the security entry among the warnings. -/
theorem validate_deployment_partition :
    (∀ (env : GateEnv) (cfg : GateConfig) (mid : String) (tier : RiskLevel)
      (can : Bool) (r : ComplianceReport) (writes : List AuditEntry),
      gate_validate_deployment env cfg mid tier = (Except.ok (can, r), writes) →
      (r.checks_run = (applicableChecks (define_checks env cfg) tier).length
       ∧ r.passed = (gateEntries env cfg mid tier).filter (fun x => x.passed)
       ∧ r.warnings = (gateEntries env cfg mid tier).filter (fun x => !x.passed && !x.blocking)
       ∧ r.failures = (gateEntries env cfg mid tier).filter (fun x => !x.passed && x.blocking)
       ∧ r.passed.length + r.warnings.length + r.failures.length = r.checks_run
       ∧ (can = true ↔ r.failures = [])))
    ∧ (gate_validate_deployment envSec {} "m1" RiskLevel.high
        = (Except.ok (true, rSec), [audit_entry_of envSec "m1" rSec])
       ∧ rSec.warnings.map CheckResult.check_name = ["security_scan_passed"]
       ∧ rSec.failures = []
       ∧ rSec.can_deploy = true) := by
  constructor
  · intro env cfg mid tier can r writes h
    obtain ⟨hr, hcan, -⟩ := gate_result_ok env cfg mid tier can r writes h
    subst hr
    have hrep : gateReport env cfg mid tier =
        { model_id := mid
          risk_level := tier.value
          can_deploy := ((gateEntries env cfg mid tier).filter
            (fun x => !x.passed && x.blocking)).length == 0
          checks_run := (applicableChecks (define_checks env cfg) tier).length
          passed := (gateEntries env cfg mid tier).filter (fun x => x.passed)
          warnings := (gateEntries env cfg mid tier).filter (fun x => !x.passed && !x.blocking)
          failures := (gateEntries env cfg mid tier).filter (fun x => !x.passed && x.blocking)
          timestamp := dt_isoformat env.now } := by
      rw [gateReport, buildReport, runChecksLoop_eq]
      rfl
    have hlen : (gateEntries env cfg mid tier).length
        = (applicableChecks (define_checks env cfg) tier).length := by
      rw [gateEntries, List.length_map]
    refine ⟨?_, ?_, ?_, ?_, ?_, ?_⟩
    · rw [hrep]
    · rw [hrep]
    · rw [hrep]
    · rw [hrep]
    · rw [hrep]
      show (List.filter (fun x => x.passed) (gateEntries env cfg mid tier)).length
          + (List.filter (fun x => !x.passed && !x.blocking) (gateEntries env cfg mid tier)).length
          + (List.filter (fun x => !x.passed && x.blocking) (gateEntries env cfg mid tier)).length
        = (applicableChecks (define_checks env cfg) tier).length
      rw [← hlen]
      exact length_filter_partition _
    · rw [hcan, hrep]
      show (((List.filter (fun x => !x.passed && x.blocking)
          (gateEntries env cfg mid tier)).length == 0) = true)
        ↔ List.filter (fun x => !x.passed && x.blocking) (gateEntries env cfg mid tier) = []
      simp [List.length_eq_zero]
  · refine ⟨rfl, rfl, rfl, rfl⟩

/-- Witness for the partition claim at the security scenario: the instance
of its conclusion at that run. -/
theorem validate_deployment_partition_witness :
    rSec.passed.length + rSec.warnings.length + rSec.failures.length = rSec.checks_run
    ∧ (true = true ↔ rSec.failures = []) := by
  have h := validate_deployment_partition.1 envSec {} "m1" RiskLevel.high true rSec
    [audit_entry_of envSec "m1" rSec] rfl
  exact ⟨h.2.2.2.2.1, h.2.2.2.2.2⟩

/-- Claim C2 (amended): exceptions raised during rule evaluation are absorbed
into the report, and the only exception `validate_deployment` can
propagate is one the storage collaborator raises while persisting the
audit-log entry; whenever that insert succeeds, exactly one audit entry
summarizing the attempt is persisted and the report is returned. -/
theorem validate_deployment_audit_logging :
    ∀ (env : GateEnv) (cfg : GateConfig) (mid : String) (tier : RiskLevel),
      (env.insert_audit_log (gateAuditEntry env cfg mid tier) = Except.ok () →
        gate_validate_deployment env cfg mid tier =
          (Except.ok ((gateReport env cfg mid tier).can_deploy, gateReport env cfg mid tier),
           [gateAuditEntry env cfg mid tier])
        ∧ (gateAuditEntry env cfg mid tier).model_id = mid
        ∧ (gateAuditEntry env cfg mid tier).can_deploy = (gateReport env cfg mid tier).can_deploy
        ∧ (gateAuditEntry env cfg mid tier).checks_run = (gateReport env cfg mid tier).checks_run
        ∧ (gateAuditEntry env cfg mid tier).failures_count
            = (gateReport env cfg mid tier).failures.length
        ∧ (gateAuditEntry env cfg mid tier).full_report
            = reportJson (gateReport env cfg mid tier)
        ∧ (gateAuditEntry env cfg mid tier).timestamp = env.now)
      ∧ (∀ e, (gate_validate_deployment env cfg mid tier).1 = Except.error e →
          env.insert_audit_log (gateAuditEntry env cfg mid tier) = Except.error e) := by
  intro env cfg mid tier
  constructor
  · intro hok
    exact ⟨validate_deployment_insert_ok (define_checks env cfg) env mid tier hok,
      rfl, rfl, rfl, rfl, rfl, rfl⟩
  · intro e he
    cases hins : env.insert_audit_log (gateAuditEntry env cfg mid tier) with
    | ok u =>
      cases u
      have heq := validate_deployment_insert_ok (define_checks env cfg) env mid tier hins
      rw [gate_validate_deployment, heq] at he
      exact absurd he (by simp)
    | error e2 =>
      have heq := validate_deployment_insert_error (define_checks env cfg) env mid tier e2 hins
      rw [gate_validate_deployment, heq] at he
      simp only [] at he
      injection he with he
      rw [he]

/-- Claim C2 counterexample: when the storage collaborator audit-log insert
raises, `validate_deployment` propagates the exception (and persists
nothing), contradicting the never-throws reading of the claim. -/
theorem validate_deployment_propagates_audit_failure :
    gate_validate_deployment envAuditFail {} "m" RiskLevel.minimal
      = (Except.error "db down", []) := rfl

/-- Witness for the amended audit-logging claim at the all-good
environment. -/
theorem validate_deployment_audit_logging_witness :
    gate_validate_deployment envGood {} "m4" RiskLevel.high =
      (Except.ok ((gateReport envGood {} "m4" RiskLevel.high).can_deploy,
        gateReport envGood {} "m4" RiskLevel.high),
       [gateAuditEntry envGood {} "m4" RiskLevel.high]) :=
  (validate_deployment_audit_logging envGood {} "m4" RiskLevel.high).1 rfl |>.1

/-- Claim C8: a minimal-tier gate run runs zero checks, reports three empty
lists, and allows deployment. -/
theorem validate_deployment_minimal_tier :
    ∀ (env : GateEnv) (cfg : GateConfig) (mid : String) (can : Bool)
      (r : ComplianceReport) (writes : List AuditEntry),
      gate_validate_deployment env cfg mid RiskLevel.minimal = (Except.ok (can, r), writes) →
      r.checks_run = 0 ∧ r.passed = [] ∧ r.warnings = [] ∧ r.failures = [] ∧ can = true := by
  intro env cfg mid can r writes h
  obtain ⟨hr, hcan, -⟩ := gate_result_ok env cfg mid RiskLevel.minimal can r writes h
  subst hr
  exact ⟨rfl, rfl, rfl, rfl, by rw [hcan]; rfl⟩

/-- Witness for the minimal-tier claim at the all-good environment. -/
theorem validate_deployment_minimal_tier_witness :
    rMin.checks_run = 0 ∧ rMin.passed = [] ∧ rMin.warnings = []
    ∧ rMin.failures = [] ∧ true = true :=
  validate_deployment_minimal_tier envGood {} "m0" true rMin
    [audit_entry_of envGood "m0" rMin] rfl

/-- A filtered-out list is empty exactly when no element maps to `some`. -/
theorem filterMap_isEmpty_eq_all {α β : Type} (f : α → Option β) (l : List α) :
    (l.filterMap f).isEmpty = l.all (fun a => (f a).isNone) := by
  induction l with
  | nil => rfl
  | cons a as ih =>
    cases hf : f a with
    | none => simp [List.filterMap_cons, hf, ih]
    | some b => simp [List.filterMap_cons, hf]

/-- Claim C7 (amended): for a retrievable metadata document, the bias rule passes
iff the bias assessment is non-empty and every attribute selected
parity metric is at most the configured threshold; and in the concrete
scenario with gender parity 0.15 against the default 0.10 threshold at
tier high, the rule entry is the single failure of the report and deployment
is refused. -/
theorem verify_bias_thresholds_iff :
    (∀ (env : GateEnv) (cfg : GateConfig) (mid : String) (tier : RiskLevel)
      (md : ModelMetadata),
      env.get_compliance_report mid = Except.ok md →
      ((verify_bias_thresholds env cfg mid tier).1 = true ↔
        (md.full_metadata.bias_assessment ≠ []
         ∧ ∀ av ∈ md.full_metadata.bias_assessment,
             bias_metric_value av.2 ≤ cfg.bias_threshold)))
    ∧ (gate_validate_deployment envBias {} "m2" RiskLevel.high
        = (Except.ok (false, rBias), [audit_entry_of envBias "m2" rBias])
       ∧ rBias.failures.map CheckResult.check_name = ["bias_assessment_passed"]
       ∧ rBias.can_deploy = false) := by
  constructor
  · intro env cfg mid tier md hmd
    simp only [verify_bias_thresholds, hmd]
    by_cases hba : md.full_metadata.bias_assessment.isEmpty = true
    · rw [if_pos hba]
      rw [List.isEmpty_iff] at hba
      simp [hba]
    · rw [if_neg hba]
      have hne : md.full_metadata.bias_assessment ≠ [] := by
        intro hnil
        exact hba (by rw [hnil]; rfl)
      split
      · rename_i hcond
        rw [Bool.not_eq_true', filterMap_isEmpty_eq_all] at hcond
        constructor
        · intro habs
          simp at habs
        · intro hrhs
          exfalso
          obtain ⟨av, hav, hnone⟩ := List.all_eq_false.mp hcond
          have hle := hrhs.2 av hav
          rw [if_neg (not_lt.mpr hle)] at hnone
          exact hnone rfl
      · rename_i hcond
        rw [Bool.not_eq_true, Bool.not_eq_false', filterMap_isEmpty_eq_all] at hcond
        constructor
        · intro _
          refine ⟨hne, ?_⟩
          intro av hav
          have hnone := List.all_eq_true.mp hcond av hav
          by_contra hgt
          rw [not_le] at hgt
          rw [if_pos hgt] at hnone
          exact absurd hnone (by simp)
        · intro _
          rfl
  · exact ⟨rfl, rfl, rfl⟩

/-- Claim C7 counterexample: an empty bias assessment vacuously satisfies the
claim every-attribute condition, yet the rule fails. -/
theorem verify_bias_thresholds_fails_on_empty_assessment :
    mdBiasEmpty.full_metadata.bias_assessment = []
    ∧ verify_bias_thresholds envBiasEmpty {} "m3" RiskLevel.high
        = (false, "No bias assessment results found") := ⟨rfl, rfl⟩

/-- Witness for the bias-threshold claim: applying the characterization at
the concrete 0.15-parity scenario shows the rule fails there. -/
theorem verify_bias_thresholds_iff_witness :
    (verify_bias_thresholds envBias {} "m2" RiskLevel.high).1 = false := by
  have h := verify_bias_thresholds_iff.1 envBias {} "m2" RiskLevel.high mdBiasHigh rfl
  cases hb : (verify_bias_thresholds envBias {} "m2" RiskLevel.high).1 with
  | false => rfl
  | true =>
    have h2 := (h.mp hb).2 ("gender", [("demographic_parity_difference", mkRat 3 20)]) (by decide)
    exact absurd h2 (by decide)

/-- Claim C9: calling the transformation or link operation with no active lineage
raises `ValueError`, leaves the tracker untouched, and makes no storage
call. -/
theorem session_state_error :
    ∀ (now : Nat) (tr : LineageTracker) (step_name : String)
      (input_data output_data : DataFrame) (transformation_code mid : String),
      tr.current_lineage = none →
      (track_transformation now tr step_name input_data output_data transformation_code
         = (Except.error (PyExc.valueError
             "Must call track_extraction() before track_transformation()"), tr, [])
       ∧ link_to_model now tr mid
         = (Except.error (PyExc.valueError "No active lineage to link"), tr, [])) := by
  intro now tr sn din dout tc mid h
  constructor
  · unfold track_transformation
    rw [h]
  · unfold link_to_model
    rw [h]

/-- Witness at a fresh tracker: both out-of-order calls fail as state
errors with no state change and no storage call. -/
theorem session_state_error_witness :
    track_transformation 3 freshTracker "clean" dfColsBA dfColsAB "df.copy()"
      = (Except.error (PyExc.valueError
          "Must call track_extraction() before track_transformation()"), freshTracker, [])
    ∧ link_to_model 3 freshTracker "model_1"
      = (Except.error (PyExc.valueError "No active lineage to link"), freshTracker, []) :=
  session_state_error 3 freshTracker "clean" dfColsBA dfColsAB "df.copy()" "model_1" rfl
